import Mathlib

/-!
Formal model of `make_graph.py`: a reporting script that parses a Go
benchmark results file and renders a latency box plot and a throughput
bar chart.

The parser applies the regular expression
`^(Benchmark\w+)(-\d+)?\s+\d+\s+([\d\.]*)\s+ns/op` (via `re.search`, so the
`^` anchor restricts matching to position 0 of each line) and converts the
third capture group with Python's `float`.  The pattern is embedded here as
a specialized backtracking matcher: each greedy quantifier over a character
class tries candidate lengths from the maximal class run downwards, exactly
the order in which the regex engine explores them.  Numeric values are
modelled with exact rationals; the one non-finite value that can arise
(numpy's `1e9 / 0.0 = +inf` in the throughput conversion) is modelled
explicitly by the `PyFloat` type.
-/

set_option maxRecDepth 3000

set_option maxHeartbeats 1000000

deriving instance DecidableEq for Except

namespace MakeGraph

/-- ASCII word character: the `\w` class of the parser's pattern. -/
def isWordChar (c : Char) : Bool := c.isAlphanum || c == '_'

/-- ASCII digit: the `\d` class of the parser's pattern. -/
def isDigitChar (c : Char) : Bool := c.isDigit

/-- Whitespace: the `\s` class of the parser's pattern. -/
def isSpaceChar (c : Char) : Bool :=
  c == ' ' || c == '\t' || c == '\n' || c == '\r' || c == '\x0b' || c == '\x0c'

/-- The `[\d\.]` class of the latency capture group. -/
def isNumChar (c : Char) : Bool := isDigitChar c || c == '.'

/-- Length of the longest prefix of `cs` whose characters all satisfy `p`:
the maximal text a greedy quantifier over the class `p` can consume. -/
def classRun (p : Char → Bool) : List Char → Nat
  | [] => 0
  | c :: cs => if p c then classRun p cs + 1 else 0

/-- Candidate lengths `hi, hi - 1, …, lo` for a greedy quantifier
(longest first; empty when `hi < lo`). -/
def descLens (lo hi : Nat) : List Nat :=
  (List.range (hi + 1 - lo)).map (fun i => hi - i)

/-- Backtracking: try the candidate lengths in order, return the first
success. -/
def firstSome {α : Type} (f : Nat → Option α) : List Nat → Option α
  | [] => none
  | n :: ns =>
    match f n with
    | some a => some a
    | none => firstSome f ns

/-- Consume the literal `lit` from the front of `cs`, returning the rest. -/
def litMatch : List Char → List Char → Option (List Char)
  | [], cs => some cs
  | _ :: _, [] => none
  | l :: ls, c :: cs => if c == l then litMatch ls cs else none

/-- Match `\s+([\d\.]*)\s+ns/op` at the front of `cs` (greedy with
backtracking), returning the text of the capture group. -/
def matchTail (cs : List Char) : Option (List Char) :=
  firstSome (fun k =>
    let cs1 := cs.drop k
    firstSome (fun j =>
      let cs2 := cs1.drop j
      firstSome (fun m =>
        match litMatch ['n', 's', '/', 'o', 'p'] (cs2.drop m) with
        | some _ => some (cs1.take j)
        | none => none)
        (descLens 1 (classRun isSpaceChar cs2)))
      (descLens 0 (classRun isNumChar cs1)))
    (descLens 1 (classRun isSpaceChar cs))

/-- Match `\s+\d+` then the tail of the pattern, at the front of `cs`. -/
def matchMid (cs : List Char) : Option (List Char) :=
  firstSome (fun k =>
    let cs1 := cs.drop k
    firstSome (fun j => matchTail (cs1.drop j))
      (descLens 1 (classRun isDigitChar cs1)))
    (descLens 1 (classRun isSpaceChar cs))

/-- Match the optional parallelism suffix `(-\d+)?` (greedy: the present
alternative is tried first) followed by the rest of the pattern. -/
def matchSuffixRest (cs : List Char) : Option (List Char) :=
  let present :=
    match cs with
    | c :: cs1 =>
      if c == '-' then
        firstSome (fun j => matchMid (cs1.drop j))
          (descLens 1 (classRun isDigitChar cs1))
      else none
    | [] => none
  match present with
  | some cap => some cap
  | none => matchMid cs

/-- `re.search(r'^(Benchmark\w+)(-\d+)?\s+\d+\s+([\d\.]*)\s+ns/op', line)`:
group 1 (the benchmark name, parallelism suffix not included) and group 3
(the captured latency text), or `none` when the line does not match.  The
`^` anchor means a match can only start at position 0 of the line. -/
def matchLine (line : String) : Option (String × List Char) :=
  match litMatch "Benchmark".data line.data with
  | none => none
  | some cs =>
    firstSome (fun k =>
      match matchSuffixRest (cs.drop k) with
      | some cap => some (String.mk ("Benchmark".data ++ cs.take k), cap)
      | none => none)
      (descLens 1 (classRun isWordChar cs))

/-- Value of a list of ASCII digits read in base 10. -/
def digitsToNat (cs : List Char) : Nat :=
  cs.foldl (fun a c => 10 * a + (c.toNat - '0'.toNat)) 0

/-- Whether Python's `float` accepts a string drawn from the capture class
`[\d\.]`: it needs at least one digit and at most one dot (so the empty
string, a lone dot and strings with two dots all raise `ValueError`). -/
def validDecimal (cs : List Char) : Bool :=
  cs.any isDigitChar && decide ((cs.filter (fun c => c == '.')).length ≤ 1)
    && cs.all isNumChar

/-- Exact value of a decimal string: integer part before the dot, fractional
part after it. -/
def decimalValue (cs : List Char) : ℚ :=
  let ip := cs.takeWhile (fun c => !(c == '.'))
  let fp := cs.drop (ip.length + 1)
  (digitsToNat ip : ℚ) + (digitsToNat fp : ℚ) / (10 : ℚ) ^ fp.length

/-- Python's `float` on the captured latency text: `some` of the exact value,
`none` when `float` raises `ValueError`. -/
def pyFloatOfCapture (cs : List Char) : Option ℚ :=
  if validDecimal cs then some (decimalValue cs) else none

/-- One row of the parsed DataFrame: benchmark name and latency in
nanoseconds per operation (modelled as an exact rational). -/
structure BenchmarkRecord where
  name : String
  latency_ns : ℚ
deriving DecidableEq

/-- `parse_benchmark_results`, over the list of lines of the input file.
A matching line appends one record; a non-matching line is skipped.  When a
line matches but `float` rejects the captured latency text, the `ValueError`
propagates out of the function: this is modelled by `Except.error` carrying
the offending captured text, and the error of the first such line wins. -/
def parse_benchmark_results : List String → Except (List Char) (List BenchmarkRecord)
  | [] => .ok []
  | line :: rest =>
    match matchLine line with
    | none => parse_benchmark_results rest
    | some (n, cap) =>
      match pyFloatOfCapture cap with
      | none => .error cap
      | some q =>
        match parse_benchmark_results rest with
        | .ok rs => .ok (⟨n, q⟩ :: rs)
        | .error e => .error e

/-- A float value as produced by the numpy arithmetic in the throughput
chart: either finite (an exact rational) or positive infinity, which arises
from `1e9 / 0.0`. -/
inductive PyFloat where
  | finite (q : ℚ)
  | inf
deriving DecidableEq

/-- numpy float64 addition restricted to the values that arise here
(infinity absorbs). -/
def PyFloat.add : PyFloat → PyFloat → PyFloat
  | .finite a, .finite b => .finite (a + b)
  | _, _ => .inf

/-- numpy division of the positive constant `1e9` by a latency: `+inf` when
the latency is zero (no exception is raised), otherwise the exact quotient. -/
def pyDiv (a b : ℚ) : PyFloat :=
  if b = 0 then .inf else .finite (a / b)

/-- Sum of a float column (pandas `Series.sum`). -/
def PyFloat.sum (xs : List PyFloat) : PyFloat :=
  xs.foldr PyFloat.add (.finite 0)

/-- Division of a float by a row count. -/
def PyFloat.divNat : PyFloat → Nat → PyFloat
  | .finite q, n => .finite (q / (n : ℚ))
  | .inf, _ => .inf

/-- pandas `Series.mean` of a float column: sum divided by length. -/
def PyFloat.mean (xs : List PyFloat) : PyFloat :=
  (PyFloat.sum xs).divNat xs.length

/-- Round to the nearest integer, ties to even: the rounding Python's
`'{:,.0f}'` format specifier applies. -/
def roundHalfEven (q : ℚ) : ℤ :=
  let f := ⌊q⌋
  if q - f < 1 / 2 then f
  else if (1 : ℚ) / 2 < q - f then f + 1
  else if f % 2 = 0 then f else f + 1

/-- Chunks of three digits, least significant first. -/
def chunk3 : List Char → List (List Char)
  | [] => []
  | a :: b :: c :: rest => [a, b, c] :: chunk3 rest
  | xs => [xs]

/-- Decimal digits of `n` with a comma every three digits: the `,` option of
Python's format mini-language. -/
def natThousands (n : Nat) : String :=
  String.mk ((((Nat.toDigits 10 n).reverse |> chunk3).intersperse [',']).flatten.reverse)

/-- `'{:,.0f} QPS'.format(v)`: the bar label of the throughput chart.
Python renders an infinite float as `inf`. -/
def fmtLabel : PyFloat → String
  | .inf => "inf QPS"
  | .finite q =>
    let r := roundHalfEven q
    (if r < 0 then "-" ++ natThousands r.natAbs else natThousands r.natAbs) ++ " QPS"

/-- Outcome of `create_latency_chart`: either the skip diagnostic is printed
and no image written, or the image is written at `path` with the box plot
drawn from `latencies`. -/
inductive LatencyChartOutcome where
  | skipped (msg : String)
  | written (path : String) (latencies : List ℚ)
deriving DecidableEq

/-- Outcome of `create_throughput_chart`: either the skip diagnostic is
printed and no image written, or the image is written at `path` with one bar
of height `avg_qps` labelled `label`. -/
inductive ThroughputChartOutcome where
  | skipped (msg : String)
  | written (path : String) (avg_qps : PyFloat) (label : String)
deriving DecidableEq

/-- `create_latency_chart(df)`: filter the rows named `BenchmarkServerE2E`;
if none, print a diagnostic and return; otherwise write the box plot of
their latencies to the output path. -/
def create_latency_chart (df : List BenchmarkRecord) : LatencyChartOutcome :=
  let latency_df := df.filter (fun r => r.name == "BenchmarkServerE2E")
  if latency_df.isEmpty then
    .skipped "No data found for 'BenchmarkServerE2E'. Skipping latency chart."
  else
    .written "benchmark_latency.png" (latency_df.map (fun r => r.latency_ns))

/-- `create_throughput_chart(df)`: filter the rows named
`BenchmarkServerThroughput`; if none, print a diagnostic and return;
otherwise compute the `qps` column as `1_000_000_000 / latency_ns` per row,
average it, and write a one-bar chart labelled with the formatted mean. -/
def create_throughput_chart (df : List BenchmarkRecord) : ThroughputChartOutcome :=
  let throughput_df := df.filter (fun r => r.name == "BenchmarkServerThroughput")
  if throughput_df.isEmpty then
    .skipped "No data found for 'BenchmarkServerThroughput'. Skipping throughput chart."
  else
    let qps := throughput_df.map (fun r => pyDiv 1000000000 r.latency_ns)
    let avg_qps := PyFloat.mean qps
    .written "benchmark_throughput.png" avg_qps (fmtLabel avg_qps)

/-- State-passing form of `create_latency_chart`: alongside the outcome it
returns the dataset as the caller sees it after the call.  The function only
reads `df` through the boolean-mask filter, which in pandas returns a new
frame, so the caller's dataset is returned unchanged. -/
def create_latency_chart_st (df : List BenchmarkRecord) :
    List BenchmarkRecord × LatencyChartOutcome :=
  let latency_df := df.filter (fun r => r.name == "BenchmarkServerE2E")
  if latency_df.isEmpty then
    (df, .skipped "No data found for 'BenchmarkServerE2E'. Skipping latency chart.")
  else
    (df, .written "benchmark_latency.png" (latency_df.map (fun r => r.latency_ns)))

/-- State-passing form of `create_throughput_chart`.  The `qps` column
assignment on line 49 of the source is applied to `throughput_df`, the new
frame produced by boolean-mask indexing on line 43, never to the caller's
frame `df`; the caller's dataset is therefore returned unchanged. -/
def create_throughput_chart_st (df : List BenchmarkRecord) :
    List BenchmarkRecord × ThroughputChartOutcome :=
  let throughput_df := df.filter (fun r => r.name == "BenchmarkServerThroughput")
  if throughput_df.isEmpty then
    (df, .skipped "No data found for 'BenchmarkServerThroughput'. Skipping throughput chart.")
  else
    let qps := throughput_df.map (fun r => pyDiv 1000000000 r.latency_ns)
    let avg_qps := PyFloat.mean qps
    (df, .written "benchmark_throughput.png" avg_qps (fmtLabel avg_qps))

/-- What one run of the script did: whether the no-data diagnostic
`"No benchmark data was found in bench_results.txt."` was printed, and each
chart function's outcome (`none` when the function was never called). -/
structure RunOutcome where
  printedNoData : Bool
  latency : Option LatencyChartOutcome
  throughput : Option ThroughputChartOutcome
deriving DecidableEq

/-- Paths of the image files a run wrote. -/
def imagesWritten (o : RunOutcome) : List String :=
  (match o.latency with
   | some (.written p _) => [p]
   | _ => []) ++
  (match o.throughput with
   | some (.written p _ _) => [p]
   | _ => [])

/-- The `__main__` block: parse, then either generate both charts (dataset
non-empty) or print the no-data diagnostic.  `Except.ok` is a normal
termination (exit code 0); `Except.error` is the uncaught `ValueError` from
a bad latency capture. -/
def main_run (lines : List String) : Except (List Char) RunOutcome :=
  match parse_benchmark_results lines with
  | .error e => .error e
  | .ok df =>
    if df.isEmpty then .ok ⟨true, none, none⟩
    else .ok ⟨false, some (create_latency_chart df), some (create_throughput_chart df)⟩

/-- Decomposition of an input line into the segments the documented pattern
describes: the word characters after the literal `Benchmark`, the optional
digits of the parallelism suffix, the three whitespace runs, the iteration
count, the latency text, and whatever trails the literal `ns/op`. -/
structure LineShape where
  nameRest : List Char
  suffix : Option (List Char)
  ws1 : List Char
  iters : List Char
  ws2 : List Char
  lat : List Char
  ws3 : List Char
  trail : List Char

/-- The line a `LineShape` denotes. -/
def LineShape.render (s : LineShape) : String :=
  String.mk ("Benchmark".data ++ (s.nameRest ++
    ((match s.suffix with
      | some ds => '-' :: ds
      | none => []) ++
    (s.ws1 ++ (s.iters ++ (s.ws2 ++ (s.lat ++ (s.ws3 ++ ("ns/op".data ++ s.trail)))))))))

/-- The segments are well formed: each run is non-empty and drawn from its
character class, and the latency text is a decimal number `float` accepts. -/
def LineShape.ok (s : LineShape) : Prop :=
  s.nameRest ≠ [] ∧ s.nameRest.all isWordChar = true ∧
  s.suffix.all (fun ds => !ds.isEmpty && ds.all isDigitChar) = true ∧
  s.ws1 ≠ [] ∧ s.ws1.all isSpaceChar = true ∧
  s.iters ≠ [] ∧ s.iters.all isDigitChar = true ∧
  s.ws2 ≠ [] ∧ s.ws2.all isSpaceChar = true ∧
  validDecimal s.lat = true ∧
  s.ws3 ≠ [] ∧ s.ws3.all isSpaceChar = true

instance (s : LineShape) : Decidable s.ok := by
  unfold LineShape.ok
  infer_instance

/-- Stated from the spec's words, for comparison with the chart code: the
arithmetic mean of `1e9 / latency_ns` over exactly the records whose name
equals the throughput benchmark identifier. -/
def throughputMeanSpec (df : List BenchmarkRecord) : ℚ :=
  let ts := df.filter (fun r => r.name == "BenchmarkServerThroughput")
  ((ts.map (fun r => (1000000000 : ℚ) / r.latency_ns)).sum) / (ts.length : ℚ)

/-! Helper lemmas about the matcher's building blocks. -/

theorem space_not_others {c : Char} (h : isSpaceChar c = true) :
    isWordChar c = false ∧ isDigitChar c = false ∧ isNumChar c = false := by
  unfold isSpaceChar at h
  simp only [Bool.or_eq_true, beq_iff_eq] at h
  rcases h with ((((h | h) | h) | h) | h) | h <;> subst h <;>
    refine ⟨by decide, by decide, by decide⟩

theorem word_not_space {c : Char} (h : isWordChar c = true) : isSpaceChar c = false := by
  cases hs : isSpaceChar c
  · rfl
  · rw [(space_not_others hs).1] at h; exact absurd h (by decide)

theorem digit_not_space {c : Char} (h : isDigitChar c = true) : isSpaceChar c = false := by
  cases hs : isSpaceChar c
  · rfl
  · rw [(space_not_others hs).2.1] at h; exact absurd h (by decide)

theorem num_not_space {c : Char} (h : isNumChar c = true) : isSpaceChar c = false := by
  cases hs : isSpaceChar c
  · rfl
  · rw [(space_not_others hs).2.2] at h; exact absurd h (by decide)

theorem litMatch_append (ls rs : List Char) : litMatch ls (ls ++ rs) = some rs := by
  induction ls with
  | nil => rfl
  | cons c cs ih => simp [litMatch, ih]

theorem litMatch_some (ls cs rs : List Char) (h : litMatch ls cs = some rs) :
    cs = ls ++ rs := by
  induction ls generalizing cs with
  | nil => simpa [litMatch] using h
  | cons l ls ih =>
    cases cs with
    | nil => exact absurd h (by simp [litMatch])
    | cons c cs =>
      unfold litMatch at h
      by_cases hc : c == l
      · rw [if_pos hc] at h
        simp only [List.cons_append, List.cons.injEq]
        exact ⟨beq_iff_eq.mp hc, ih cs h⟩
      · rw [if_neg hc] at h; exact absurd h (by simp)

theorem classRun_nil (p : Char → Bool) : classRun p [] = 0 := rfl

theorem classRun_cons_neg {p : Char → Bool} {c : Char} (cs : List Char)
    (h : p c = false) : classRun p (c :: cs) = 0 := by
  simp [classRun, h]

theorem classRun_append_all {p : Char → Bool} {xs : List Char} (ys : List Char)
    (h : xs.all p = true) : classRun p (xs ++ ys) = xs.length + classRun p ys := by
  induction xs with
  | nil => simp
  | cons c cs ih =>
    simp only [List.all_cons, Bool.and_eq_true] at h
    simp [classRun, h.1, ih h.2]
    omega

theorem descLens_head {lo hi : Nat} (h : lo ≤ hi) :
    ∃ t, descLens lo hi = hi :: t := by
  unfold descLens
  rw [show hi + 1 - lo = (hi - lo) + 1 from by omega, List.range_succ_eq_map]
  refine ⟨(List.range (hi - lo)).map (fun i => hi - (i + 1)), ?_⟩
  simp [List.map_map, Function.comp_def]

theorem firstSome_cons_some {α : Type} {f : Nat → Option α} {n : Nat} {a : α}
    (ns : List Nat) (h : f n = some a) : firstSome f (n :: ns) = some a := by
  simp [firstSome, h]

theorem firstSome_descLens {α : Type} {f : Nat → Option α} {lo hi : Nat} {a : α}
    (h : lo ≤ hi) (hf : f hi = some a) : firstSome f (descLens lo hi) = some a := by
  obtain ⟨t, ht⟩ := descLens_head h
  rw [ht]
  exact firstSome_cons_some t hf

theorem classRun_exact {p : Char → Bool} {xs : List Char} (c : Char) (cs ys : List Char)
    (hall : xs.all p = true) (hc : p c = false) :
    classRun p (xs ++ ((c :: cs) ++ ys)) = xs.length := by
  rw [classRun_append_all _ hall,
    show (c :: cs) ++ ys = c :: (cs ++ ys) from rfl,
    classRun_cons_neg _ hc]
  omega

theorem matchTail_spec (ws2 lat ws3 trail : List Char)
    (hw2 : ws2 ≠ []) (hw2a : ws2.all isSpaceChar = true)
    (hlat0 : lat ≠ []) (hlata : lat.all isNumChar = true)
    (hw3 : ws3 ≠ []) (hw3a : ws3.all isSpaceChar = true) :
    matchTail (ws2 ++ (lat ++ (ws3 ++ ("ns/op".data ++ trail)))) = some lat := by
  obtain ⟨l, ls, rfl⟩ : ∃ l ls, lat = l :: ls := by
    cases lat with
    | nil => exact absurd rfl hlat0
    | cons l ls => exact ⟨l, ls, rfl⟩
  obtain ⟨w3, ws3', rfl⟩ : ∃ w3 ws3', ws3 = w3 :: ws3' := by
    cases ws3 with
    | nil => exact absurd rfl hw3
    | cons w3 ws3' => exact ⟨w3, ws3', rfl⟩
  have hl : isNumChar l = true := by
    simp only [List.all_cons, Bool.and_eq_true] at hlata; exact hlata.1
  have hw3h : isSpaceChar w3 = true := by
    simp only [List.all_cons, Bool.and_eq_true] at hw3a; exact hw3a.1
  unfold matchTail
  rw [show "ns/op".data = ['n', 's', '/', 'o', 'p'] from rfl]
  rw [classRun_exact l ls _ hw2a (num_not_space hl)]
  apply firstSome_descLens (Nat.succ_le_of_lt (List.length_pos.mpr hw2))
  simp only [List.drop_left]
  rw [classRun_exact w3 ws3' _ hlata (space_not_others hw3h).2.2]
  apply firstSome_descLens (Nat.zero_le _)
  simp only [List.drop_left]
  rw [classRun_exact 'n' ['s', '/', 'o', 'p'] _ hw3a (by decide)]
  apply firstSome_descLens (Nat.succ_le_of_lt (List.length_pos.mpr (by simp)))
  simp only [List.drop_left, litMatch_append]
  simp [List.take_left]

theorem matchMid_spec (ws1 iters ws2 lat ws3 trail : List Char)
    (hw1 : ws1 ≠ []) (hw1a : ws1.all isSpaceChar = true)
    (hit : iters ≠ []) (hita : iters.all isDigitChar = true)
    (hw2 : ws2 ≠ []) (hw2a : ws2.all isSpaceChar = true)
    (hlat0 : lat ≠ []) (hlata : lat.all isNumChar = true)
    (hw3 : ws3 ≠ []) (hw3a : ws3.all isSpaceChar = true) :
    matchMid (ws1 ++ (iters ++ (ws2 ++ (lat ++ (ws3 ++ ("ns/op".data ++ trail)))))) =
      some lat := by
  obtain ⟨i, is, rfl⟩ : ∃ i is, iters = i :: is := by
    cases iters with
    | nil => exact absurd rfl hit
    | cons i is => exact ⟨i, is, rfl⟩
  obtain ⟨w2, ws2', rfl⟩ : ∃ w2 ws2', ws2 = w2 :: ws2' := by
    cases ws2 with
    | nil => exact absurd rfl hw2
    | cons w2 ws2' => exact ⟨w2, ws2', rfl⟩
  have hi : isDigitChar i = true := by
    simp only [List.all_cons, Bool.and_eq_true] at hita; exact hita.1
  have hw2h : isSpaceChar w2 = true := by
    simp only [List.all_cons, Bool.and_eq_true] at hw2a; exact hw2a.1
  unfold matchMid
  rw [classRun_exact i is _ hw1a (digit_not_space hi)]
  apply firstSome_descLens (Nat.succ_le_of_lt (List.length_pos.mpr hw1))
  simp only [List.drop_left]
  rw [classRun_exact w2 ws2' _ hita (space_not_others hw2h).2.1]
  apply firstSome_descLens (Nat.succ_le_of_lt (List.length_pos.mpr (by simp)))
  simp only [List.drop_left]
  exact matchTail_spec _ _ _ _ hw2 hw2a hlat0 hlata hw3 hw3a

theorem matchSuffixRest_eq (c : Char) (cs1 : List Char) :
    matchSuffixRest (c :: cs1) =
      (match (if c == '-' then
          firstSome (fun j => matchMid (cs1.drop j))
            (descLens 1 (classRun isDigitChar cs1))
        else none) with
       | some cap => some cap
       | none => matchMid (c :: cs1)) := rfl

theorem matchSuffixRest_none_spec (ws1 iters ws2 lat ws3 trail : List Char)
    (hw1 : ws1 ≠ []) (hw1a : ws1.all isSpaceChar = true)
    (hit : iters ≠ []) (hita : iters.all isDigitChar = true)
    (hw2 : ws2 ≠ []) (hw2a : ws2.all isSpaceChar = true)
    (hlat0 : lat ≠ []) (hlata : lat.all isNumChar = true)
    (hw3 : ws3 ≠ []) (hw3a : ws3.all isSpaceChar = true) :
    matchSuffixRest (ws1 ++ (iters ++ (ws2 ++ (lat ++ (ws3 ++
      ("ns/op".data ++ trail)))))) = some lat := by
  obtain ⟨w1, ws1', rfl⟩ : ∃ w1 ws1', ws1 = w1 :: ws1' := by
    cases ws1 with
    | nil => exact absurd rfl hw1
    | cons w1 ws1' => exact ⟨w1, ws1', rfl⟩
  have hw1h : isSpaceChar w1 = true := by
    simp only [List.all_cons, Bool.and_eq_true] at hw1a; exact hw1a.1
  have hmid := matchMid_spec (w1 :: ws1') iters ws2 lat ws3 trail
    hw1 hw1a hit hita hw2 hw2a hlat0 hlata hw3 hw3a
  have hne : (w1 == '-') = false := by
    apply beq_eq_false_iff_ne.mpr
    intro hcontra
    rw [hcontra] at hw1h
    exact absurd hw1h (by decide)
  rw [show (w1 :: ws1') ++ (iters ++ (ws2 ++ (lat ++ (ws3 ++
      ("ns/op".data ++ trail))))) =
    w1 :: (ws1' ++ (iters ++ (ws2 ++ (lat ++ (ws3 ++
      ("ns/op".data ++ trail)))))) from rfl] at hmid ⊢
  rw [matchSuffixRest_eq, hne]
  exact hmid

theorem matchSuffixRest_some_spec (ds ws1 iters ws2 lat ws3 trail : List Char)
    (hds0 : ds ≠ []) (hdsa : ds.all isDigitChar = true)
    (hw1 : ws1 ≠ []) (hw1a : ws1.all isSpaceChar = true)
    (hit : iters ≠ []) (hita : iters.all isDigitChar = true)
    (hw2 : ws2 ≠ []) (hw2a : ws2.all isSpaceChar = true)
    (hlat0 : lat ≠ []) (hlata : lat.all isNumChar = true)
    (hw3 : ws3 ≠ []) (hw3a : ws3.all isSpaceChar = true) :
    matchSuffixRest (('-' :: ds) ++ (ws1 ++ (iters ++ (ws2 ++ (lat ++ (ws3 ++
      ("ns/op".data ++ trail))))))) = some lat := by
  obtain ⟨w1, ws1', rfl⟩ : ∃ w1 ws1', ws1 = w1 :: ws1' := by
    cases ws1 with
    | nil => exact absurd rfl hw1
    | cons w1 ws1' => exact ⟨w1, ws1', rfl⟩
  have hw1h : isSpaceChar w1 = true := by
    simp only [List.all_cons, Bool.and_eq_true] at hw1a; exact hw1a.1
  have hmid := matchMid_spec (w1 :: ws1') iters ws2 lat ws3 trail
    hw1 hw1a hit hita hw2 hw2a hlat0 hlata hw3 hw3a
  rw [show ('-' :: ds) ++ ((w1 :: ws1') ++ (iters ++ (ws2 ++ (lat ++ (ws3 ++
      ("ns/op".data ++ trail)))))) =
    '-' :: (ds ++ ((w1 :: ws1') ++ (iters ++ (ws2 ++ (lat ++ (ws3 ++
      ("ns/op".data ++ trail))))))) from rfl]
  rw [matchSuffixRest_eq]
  have hpres : firstSome
      (fun j => matchMid ((ds ++ ((w1 :: ws1') ++ (iters ++ (ws2 ++ (lat ++
        (ws3 ++ ("ns/op".data ++ trail))))))).drop j))
      (descLens 1 (classRun isDigitChar (ds ++ ((w1 :: ws1') ++ (iters ++
        (ws2 ++ (lat ++ (ws3 ++ ("ns/op".data ++ trail))))))))) = some lat := by
    rw [classRun_exact w1 ws1' _ hdsa (space_not_others hw1h).2.1]
    apply firstSome_descLens (Nat.succ_le_of_lt (List.length_pos.mpr hds0))
    simp only [List.drop_left]
    exact hmid
  rw [show (('-' : Char) == '-') = true from rfl]
  simp only [if_true]
  rw [hpres]

theorem matchLine_spec (s : LineShape) (h : s.ok) :
    matchLine s.render = some (String.mk ("Benchmark".data ++ s.nameRest), s.lat) := by
  obtain ⟨nameRest, sfx, ws1, iters, ws2, lat, ws3, trail⟩ := s
  obtain ⟨hn0, hna, hs, hw1, hw1a, hit, hita, hw2, hw2a, hvd, hw3, hw3a⟩ := h
  have hlat : lat ≠ [] ∧ lat.all isNumChar = true := by
    unfold validDecimal at hvd
    simp only [Bool.and_eq_true] at hvd
    refine ⟨?_, hvd.2⟩
    intro hnil
    rw [hnil] at hvd
    simpa using hvd.1.1
  obtain ⟨hlat0, hlata⟩ := hlat
  cases sfx with
  | none =>
    obtain ⟨w1, ws1', rfl⟩ : ∃ w1 ws1', ws1 = w1 :: ws1' := by
      cases ws1 with
      | nil => exact absurd rfl hw1
      | cons w1 ws1' => exact ⟨w1, ws1', rfl⟩
    have hw1h : isSpaceChar w1 = true := by
      simp only [List.all_cons, Bool.and_eq_true] at hw1a; exact hw1a.1
    simp only [matchLine, LineShape.render, litMatch_append, List.nil_append]
    rw [classRun_exact w1 ws1' _ hna (space_not_others hw1h).1]
    apply firstSome_descLens (Nat.succ_le_of_lt (List.length_pos.mpr hn0))
    simp only [List.drop_left]
    rw [matchSuffixRest_none_spec (w1 :: ws1') iters ws2 lat ws3 trail
      hw1 hw1a hit hita hw2 hw2a hlat0 hlata hw3 hw3a]
    simp only [List.take_left]
  | some ds =>
    simp only [Option.all, Bool.and_eq_true] at hs
    obtain ⟨hds0', hdsa⟩ := hs
    have hds0 : ds ≠ [] := by
      intro hnil
      rw [hnil] at hds0'
      exact absurd hds0' (by decide)
    simp only [matchLine, LineShape.render, litMatch_append]
    rw [classRun_exact '-' ds _ hna (by decide)]
    apply firstSome_descLens (Nat.succ_le_of_lt (List.length_pos.mpr hn0))
    simp only [List.drop_left]
    rw [matchSuffixRest_some_spec ds ws1 iters ws2 lat ws3 trail
      hds0 hdsa hw1 hw1a hit hita hw2 hw2a hlat0 hlata hw3 hw3a]
    simp only [List.take_left]

theorem parse_cons_none {line : String} (rest : List String)
    (h : matchLine line = none) :
    parse_benchmark_results (line :: rest) = parse_benchmark_results rest := by
  simp only [parse_benchmark_results, h]

theorem parse_cons_invalid {line n : String} {cap : List Char} (rest : List String)
    (hm : matchLine line = some (n, cap)) (hv : validDecimal cap = false) :
    parse_benchmark_results (line :: rest) = .error cap := by
  simp only [parse_benchmark_results, hm, pyFloatOfCapture, hv, Bool.false_eq_true,
    if_false]

theorem parse_cons_valid {line n : String} {cap : List Char} (rest : List String)
    (hm : matchLine line = some (n, cap)) (hv : validDecimal cap = true) :
    parse_benchmark_results (line :: rest) =
      (parse_benchmark_results rest).map
        (fun rs => ⟨n, decimalValue cap⟩ :: rs) := by
  simp only [parse_benchmark_results, hm, pyFloatOfCapture, hv, if_true]
  cases parse_benchmark_results rest <;> rfl

theorem decimalValue_nonneg (cs : List Char) : 0 ≤ decimalValue cs := by
  unfold decimalValue
  positivity

theorem parse_ok_nonneg : ∀ (lines : List String) (ds : List BenchmarkRecord),
    parse_benchmark_results lines = .ok ds → ∀ r ∈ ds, 0 ≤ r.latency_ns := by
  intro lines
  induction lines with
  | nil =>
    intro ds h r hr
    simp only [parse_benchmark_results, Except.ok.injEq] at h
    subst h
    cases hr
  | cons line rest ih =>
    intro ds h r hr
    cases hm : matchLine line with
    | none =>
      rw [parse_cons_none rest hm] at h
      exact ih ds h r hr
    | some nc =>
      obtain ⟨n, cap⟩ := nc
      cases hv : validDecimal cap with
      | false =>
        rw [parse_cons_invalid rest hm hv] at h
        exact absurd h (by simp)
      | true =>
        rw [parse_cons_valid rest hm hv] at h
        cases hp : parse_benchmark_results rest with
        | error e =>
          rw [hp] at h
          exact absurd h (by simp [Except.map])
        | ok rs =>
          rw [hp] at h
          simp only [Except.map, Except.ok.injEq] at h
          subst h
          rcases List.mem_cons.mp hr with h1 | h2
          · rw [h1]
            exact decimalValue_nonneg cap
          · exact ih rs hp r h2

theorem parse_ok_length : ∀ (lines : List String) (ds : List BenchmarkRecord),
    parse_benchmark_results lines = .ok ds →
    ds.length = lines.countP (fun l => (matchLine l).isSome) := by
  intro lines
  induction lines with
  | nil =>
    intro ds h
    simp only [parse_benchmark_results, Except.ok.injEq] at h
    subst h
    rfl
  | cons line rest ih =>
    intro ds h
    rw [List.countP_cons]
    cases hm : matchLine line with
    | none =>
      rw [parse_cons_none rest hm] at h
      simp [ih ds h, hm]
    | some nc =>
      obtain ⟨n, cap⟩ := nc
      cases hv : validDecimal cap with
      | false =>
        rw [parse_cons_invalid rest hm hv] at h
        exact absurd h (by simp)
      | true =>
        rw [parse_cons_valid rest hm hv] at h
        cases hp : parse_benchmark_results rest with
        | error e =>
          rw [hp] at h
          exact absurd h (by simp [Except.map])
        | ok rs =>
          rw [hp] at h
          simp only [Except.map, Except.ok.injEq] at h
          subst h
          simp [ih rs hp, hm]

theorem PyFloat.sum_cons (x : PyFloat) (xs : List PyFloat) :
    PyFloat.sum (x :: xs) = x.add (PyFloat.sum xs) := rfl

theorem pyfloat_sum_finite (rs : List BenchmarkRecord)
    (h : ∀ r ∈ rs, r.latency_ns ≠ 0) :
    PyFloat.sum (rs.map (fun r => pyDiv 1000000000 r.latency_ns)) =
      .finite ((rs.map (fun r => (1000000000 : ℚ) / r.latency_ns)).sum) := by
  induction rs with
  | nil => rfl
  | cons a as ih =>
    have ha : a.latency_ns ≠ 0 := h a (List.mem_cons_self a as)
    have ih' := ih (fun r hr => h r (List.mem_cons_of_mem a hr))
    rw [List.map_cons, PyFloat.sum_cons, ih', List.map_cons, List.sum_cons,
      show pyDiv 1000000000 a.latency_ns =
        .finite ((1000000000 : ℚ) / a.latency_ns) from by
          unfold pyDiv; rw [if_neg ha]]
    rfl

/-! The claims. -/

/-- C1 (counterexample): the claim says a matching line whose captured
latency text is not a valid decimal is skipped silently.  On the line
`BenchmarkFoo 100  ns/op` (two blanks before `ns/op`) the pattern matches
with an empty capture, `float('')` raises `ValueError`, and the parse
aborts with an error instead of skipping the line. -/
theorem bad_capture_raises_error :
    parse_benchmark_results ["BenchmarkFoo 100  ns/op"] = .error [] := by decide

/-- C1 (amended): every record of a successfully parsed dataset has a
non-negative (finite rational) `latency_ns`; but a line that matches the
pattern with a captured latency text that `float` rejects makes
`parse_benchmark_results` raise the `ValueError` (modelled as `.error`),
rather than skipping the line. -/
theorem latency_nonneg_and_invalid_capture_errors :
    (∀ (lines : List String) (ds : List BenchmarkRecord),
      parse_benchmark_results lines = .ok ds → ∀ r ∈ ds, 0 ≤ r.latency_ns) ∧
    (∀ (line : String) (rest : List String) (n : String) (cap : List Char),
      matchLine line = some (n, cap) → validDecimal cap = false →
      parse_benchmark_results (line :: rest) = .error cap) :=
  ⟨parse_ok_nonneg, fun _ rest _ _ hm hv => parse_cons_invalid rest hm hv⟩

/-- C1 (witness): both parts at concrete inputs. -/
theorem latency_nonneg_and_invalid_capture_errors_w :
    (0 : ℚ) ≤ (501 / 2 : ℚ) ∧
    parse_benchmark_results ["BenchmarkFoo 100  ns/op"] = .error [] :=
  ⟨latency_nonneg_and_invalid_capture_errors.1
      ["BenchmarkServerE2E-8   1000   250.5 ns/op"]
      [⟨"BenchmarkServerE2E", 501 / 2⟩] (by with_unfolding_all decide)
      ⟨"BenchmarkServerE2E", 501 / 2⟩ (by with_unfolding_all decide),
    latency_nonneg_and_invalid_capture_errors.2
      "BenchmarkFoo 100  ns/op" [] "BenchmarkFoo" [] (by decide) (by decide)⟩

/-- C2: the bar value of the throughput chart is exactly the arithmetic
mean of `1e9 / latency_ns` over the records named
`BenchmarkServerThroughput`, and the bar label is that value formatted with
thousands separators followed by ` QPS`. -/
theorem throughput_bar_is_spec_mean (df : List BenchmarkRecord)
    (hne : df.filter (fun r => r.name == "BenchmarkServerThroughput") ≠ [])
    (hz : ∀ r ∈ df.filter (fun r => r.name == "BenchmarkServerThroughput"),
      r.latency_ns ≠ 0) :
    create_throughput_chart df =
      .written "benchmark_throughput.png" (.finite (throughputMeanSpec df))
        (fmtLabel (.finite (throughputMeanSpec df))) := by
  unfold create_throughput_chart throughputMeanSpec
  have he : (df.filter (fun r => r.name == "BenchmarkServerThroughput")).isEmpty
      = false := by
    cases hf : df.filter (fun r => r.name == "BenchmarkServerThroughput") with
    | nil => exact absurd hf hne
    | cons a as => rfl
  simp only [he, Bool.false_eq_true, if_false]
  unfold PyFloat.mean
  rw [pyfloat_sum_finite _ hz]
  unfold PyFloat.divNat
  rw [List.length_map]

/-- C2 (witness): three identical throughput lines with latency 2000.0
ns/op give mean 500,000 QPS and bar label `500,000 QPS`. -/
theorem throughput_bar_is_spec_mean_w :
    parse_benchmark_results
        ["BenchmarkServerThroughput-4   500   2000.0 ns/op",
         "BenchmarkServerThroughput-4   500   2000.0 ns/op",
         "BenchmarkServerThroughput-4   500   2000.0 ns/op"] =
      .ok [⟨"BenchmarkServerThroughput", 2000⟩,
        ⟨"BenchmarkServerThroughput", 2000⟩,
        ⟨"BenchmarkServerThroughput", 2000⟩] ∧
    create_throughput_chart
        [⟨"BenchmarkServerThroughput", 2000⟩,
         ⟨"BenchmarkServerThroughput", 2000⟩,
         ⟨"BenchmarkServerThroughput", 2000⟩] =
      .written "benchmark_throughput.png" (.finite 500000) "500,000 QPS" := by
  have hm : matchLine "BenchmarkServerThroughput-4   500   2000.0 ns/op" =
      some ("BenchmarkServerThroughput", "2000.0".data) := by decide
  have hv : validDecimal "2000.0".data = true := by decide
  have hd : decimalValue "2000.0".data = 2000 := by with_unfolding_all decide
  have hp : parse_benchmark_results
      ["BenchmarkServerThroughput-4   500   2000.0 ns/op",
       "BenchmarkServerThroughput-4   500   2000.0 ns/op",
       "BenchmarkServerThroughput-4   500   2000.0 ns/op"] =
      .ok [⟨"BenchmarkServerThroughput", 2000⟩,
        ⟨"BenchmarkServerThroughput", 2000⟩,
        ⟨"BenchmarkServerThroughput", 2000⟩] := by
    rw [parse_cons_valid _ hm hv, parse_cons_valid _ hm hv,
      parse_cons_valid _ hm hv]
    simp only [parse_benchmark_results, Except.map]
    rw [hd]
  refine ⟨hp, ?_⟩
  have hfilter : ([⟨"BenchmarkServerThroughput", 2000⟩,
      ⟨"BenchmarkServerThroughput", 2000⟩,
      ⟨"BenchmarkServerThroughput", 2000⟩] : List BenchmarkRecord).filter
        (fun r => r.name == "BenchmarkServerThroughput") =
      [⟨"BenchmarkServerThroughput", 2000⟩, ⟨"BenchmarkServerThroughput", 2000⟩,
        ⟨"BenchmarkServerThroughput", 2000⟩] := rfl
  have hz : ∀ r ∈ ([⟨"BenchmarkServerThroughput", 2000⟩,
      ⟨"BenchmarkServerThroughput", 2000⟩,
      ⟨"BenchmarkServerThroughput", 2000⟩] : List BenchmarkRecord).filter
        (fun r => r.name == "BenchmarkServerThroughput"),
      r.latency_ns ≠ 0 := by
    intro r hr
    rw [hfilter] at hr
    rcases List.mem_cons.mp hr with h | hr
    · rw [h]; exact (by norm_num : (2000 : ℚ) ≠ 0)
    rcases List.mem_cons.mp hr with h | hr
    · rw [h]; exact (by norm_num : (2000 : ℚ) ≠ 0)
    rcases List.mem_cons.mp hr with h | hr
    · rw [h]; exact (by norm_num : (2000 : ℚ) ≠ 0)
    · cases hr
  have hmean : throughputMeanSpec
      [⟨"BenchmarkServerThroughput", 2000⟩, ⟨"BenchmarkServerThroughput", 2000⟩,
        ⟨"BenchmarkServerThroughput", 2000⟩] = 500000 := by
    simp only [throughputMeanSpec]
    rw [hfilter]
    rw [show ([⟨"BenchmarkServerThroughput", 2000⟩,
        ⟨"BenchmarkServerThroughput", 2000⟩,
        ⟨"BenchmarkServerThroughput", 2000⟩] : List BenchmarkRecord).map
          (fun r => (1000000000 : ℚ) / r.latency_ns) =
      [(1000000000 : ℚ) / 2000, (1000000000 : ℚ) / 2000,
        (1000000000 : ℚ) / 2000] from rfl]
    rw [List.sum_cons, List.sum_cons, List.sum_cons, List.sum_nil]
    norm_num
  rw [throughput_bar_is_spec_mean
    [⟨"BenchmarkServerThroughput", 2000⟩, ⟨"BenchmarkServerThroughput", 2000⟩,
      ⟨"BenchmarkServerThroughput", 2000⟩]
    (fun h => List.noConfusion (hfilter.symm.trans h)) hz]
  rw [hmean]
  rw [show fmtLabel (.finite 500000) = "500,000 QPS" from by
    with_unfolding_all decide]

/-- C3: a line that decomposes according to the documented pattern, with a
latency text that is a valid decimal, is matched with name = `Benchmark`
plus the word characters that follow (the `-N` parallelism suffix
stripped), and parsing it prepends exactly one record holding that name and
the value of the decimal directly preceding `ns/op`. -/
theorem matching_line_yields_one_record (s : LineShape) (rest : List String)
    (h : s.ok) :
    matchLine s.render =
      some (String.mk ("Benchmark".data ++ s.nameRest), s.lat) ∧
    parse_benchmark_results (s.render :: rest) =
      (parse_benchmark_results rest).map
        (fun rs =>
          ⟨String.mk ("Benchmark".data ++ s.nameRest), decimalValue s.lat⟩ :: rs) := by
  have hm := matchLine_spec s h
  refine ⟨hm, ?_⟩
  have hvd : validDecimal s.lat = true := h.2.2.2.2.2.2.2.2.2.1
  exact parse_cons_valid rest hm hvd

/-- C3 (witness): the scenario line `BenchmarkServerE2E-8   1000   250.5
ns/op` yields exactly one record named `BenchmarkServerE2E` with latency
250.5. -/
theorem matching_line_yields_one_record_w :
    LineShape.render ⟨"ServerE2E".data, some ['8'], "   ".data, "1000".data,
        "   ".data, "250.5".data, [' '], []⟩ =
      "BenchmarkServerE2E-8   1000   250.5 ns/op" ∧
    parse_benchmark_results
        [LineShape.render ⟨"ServerE2E".data, some ['8'], "   ".data,
          "1000".data, "   ".data, "250.5".data, [' '], []⟩] =
      .ok [⟨"BenchmarkServerE2E", 501 / 2⟩] := by
  refine ⟨by decide, ?_⟩
  rw [(matching_line_yields_one_record ⟨"ServerE2E".data, some ['8'],
    "   ".data, "1000".data, "   ".data, "250.5".data, [' '], []⟩ []
    (by decide)).2]
  with_unfolding_all decide

/-- C4: a line the pattern does not match contributes nothing: parsing it
in front of any remaining lines gives exactly the parse of the remaining
lines, with no record appended and no error raised. -/
theorem non_matching_line_skipped (line : String) (rest : List String)
    (h : matchLine line = none) :
    parse_benchmark_results (line :: rest) = parse_benchmark_results rest :=
  parse_cons_none rest h

/-- C4 (witness): an unrelated log line parses to the empty dataset. -/
theorem non_matching_line_skipped_w :
    matchLine "some unrelated log line" = none ∧
    parse_benchmark_results ["some unrelated log line"] = .ok [] :=
  ⟨by decide,
    (non_matching_line_skipped "some unrelated log line" [] (by decide)).trans
      rfl⟩

/-- C5: on a non-empty dataset the main block calls both chart functions;
a chart whose fixed benchmark name has no records is skipped with its
diagnostic message, while the other chart still renders from the same
dataset when its data exists. -/
theorem missing_benchmark_skips_only_its_chart (lines : List String)
    (df : List BenchmarkRecord) (hp : parse_benchmark_results lines = .ok df)
    (hne : df ≠ []) :
    main_run lines =
      .ok ⟨false, some (create_latency_chart df),
        some (create_throughput_chart df)⟩ ∧
    (df.filter (fun r => r.name == "BenchmarkServerThroughput") = [] →
      create_throughput_chart df =
        .skipped "No data found for 'BenchmarkServerThroughput'. Skipping throughput chart.") ∧
    (df.filter (fun r => r.name == "BenchmarkServerE2E") = [] →
      create_latency_chart df =
        .skipped "No data found for 'BenchmarkServerE2E'. Skipping latency chart.") ∧
    (df.filter (fun r => r.name == "BenchmarkServerE2E") ≠ [] →
      create_latency_chart df =
        .written "benchmark_latency.png"
          ((df.filter (fun r => r.name == "BenchmarkServerE2E")).map
            (fun r => r.latency_ns))) ∧
    (df.filter (fun r => r.name == "BenchmarkServerThroughput") ≠ [] →
      ∃ v lbl,
        create_throughput_chart df = .written "benchmark_throughput.png" v lbl) := by
  have hemp : df.isEmpty = false := by
    cases df with
    | nil => exact absurd rfl hne
    | cons a as => rfl
  refine ⟨?_, ?_, ?_, ?_, ?_⟩
  · unfold main_run
    rw [hp]
    simp only [hemp, Bool.false_eq_true, if_false]
  · intro hfe
    unfold create_throughput_chart
    rw [hfe]
    rfl
  · intro hfe
    unfold create_latency_chart
    rw [hfe]
    rfl
  · intro hfne
    have he : (df.filter (fun r => r.name == "BenchmarkServerE2E")).isEmpty
        = false := by
      cases hf : df.filter (fun r => r.name == "BenchmarkServerE2E") with
      | nil => exact absurd hf hfne
      | cons a as => rfl
    unfold create_latency_chart
    simp only [he, Bool.false_eq_true, if_false]
  · intro hfne
    have he : (df.filter
        (fun r => r.name == "BenchmarkServerThroughput")).isEmpty = false := by
      cases hf : df.filter (fun r => r.name == "BenchmarkServerThroughput") with
      | nil => exact absurd hf hfne
      | cons a as => rfl
    unfold create_throughput_chart
    simp only [he, Bool.false_eq_true, if_false]
    exact ⟨_, _, rfl⟩

/-- C5 (witness): a file of five `BenchmarkServerE2E-8` lines with varying
latencies renders the latency chart and skips the throughput chart with its
diagnostic. -/
theorem missing_benchmark_skips_only_its_chart_w :
    main_run
        ["BenchmarkServerE2E-8   1000   250.5 ns/op",
         "BenchmarkServerE2E-8   1000   251.5 ns/op",
         "BenchmarkServerE2E-8   1000   252.5 ns/op",
         "BenchmarkServerE2E-8   1000   249.5 ns/op",
         "BenchmarkServerE2E-8   1000   248.5 ns/op"] =
      .ok ⟨false,
        some (.written "benchmark_latency.png"
          [501 / 2, 503 / 2, 505 / 2, 499 / 2, 497 / 2]),
        some (.skipped
          "No data found for 'BenchmarkServerThroughput'. Skipping throughput chart.")⟩ := by
  rw [(missing_benchmark_skips_only_its_chart
    ["BenchmarkServerE2E-8   1000   250.5 ns/op",
     "BenchmarkServerE2E-8   1000   251.5 ns/op",
     "BenchmarkServerE2E-8   1000   252.5 ns/op",
     "BenchmarkServerE2E-8   1000   249.5 ns/op",
     "BenchmarkServerE2E-8   1000   248.5 ns/op"]
    [⟨"BenchmarkServerE2E", 501 / 2⟩, ⟨"BenchmarkServerE2E", 503 / 2⟩,
     ⟨"BenchmarkServerE2E", 505 / 2⟩, ⟨"BenchmarkServerE2E", 499 / 2⟩,
     ⟨"BenchmarkServerE2E", 497 / 2⟩] (by with_unfolding_all decide)
    (by decide)).1]
  with_unfolding_all decide

/-- C6: the throughput conversion `qps = 1e9 / latency_ns` has no guard for
zero latency: a dataset holding a `BenchmarkServerThroughput` record with
latency 0 (parseable from a real input line) is not skipped and yields an
infinite mean QPS, rendered as an infinite bar value. -/
theorem zero_latency_throughput_unguarded :
    parse_benchmark_results ["BenchmarkServerThroughput 100 0 ns/op"] =
      .ok [⟨"BenchmarkServerThroughput", 0⟩] ∧
    create_throughput_chart [⟨"BenchmarkServerThroughput", 0⟩] =
      .written "benchmark_throughput.png" PyFloat.inf "inf QPS" :=
  ⟨by with_unfolding_all decide, by with_unfolding_all decide⟩

/-- C7: a successfully parsed dataset has exactly one record per line the
pattern matches. -/
theorem dataset_size_eq_matching_lines (lines : List String)
    (ds : List BenchmarkRecord) (h : parse_benchmark_results lines = .ok ds) :
    ds.length = lines.countP (fun l => (matchLine l).isSome) :=
  parse_ok_length lines ds h

/-- C7 (witness): two matching lines among three give a dataset of two. -/
theorem dataset_size_eq_matching_lines_w :
    ([⟨"BenchmarkA", 2⟩, ⟨"BenchmarkB", 9 / 2⟩] : List BenchmarkRecord).length =
      (["junk line", "BenchmarkA 1 2 ns/op",
        "BenchmarkB 3 4.5 ns/op"].countP (fun l => (matchLine l).isSome)) :=
  dataset_size_eq_matching_lines _ _ (by with_unfolding_all decide)

/-- C8: when parsing yields an empty dataset the main block prints the
no-data diagnostic, calls neither chart function, writes no image, and
terminates normally (`Except.ok`, exit code 0). -/
theorem empty_dataset_prints_diagnostic (lines : List String)
    (h : parse_benchmark_results lines = .ok []) :
    main_run lines = .ok ⟨true, none, none⟩ ∧
    imagesWritten ⟨true, none, none⟩ = [] := by
  constructor
  · unfold main_run
    rw [h]
    rfl
  · rfl

/-- C8 (witness): the empty input file. -/
theorem empty_dataset_prints_diagnostic_w :
    main_run [] = .ok ⟨true, none, none⟩ ∧
    imagesWritten ⟨true, none, none⟩ = [] :=
  empty_dataset_prints_diagnostic [] rfl

/-- C9: neither chart function mutates the caller's dataset: each
state-passing chart call returns the dataset unchanged with the same
outcome as the plain call, so each chart observes the same parsed records
whether it runs before or after the other (the `qps` column assignment
inside the throughput chart applies to the filtered copy only). -/
theorem charts_preserve_dataset (df : List BenchmarkRecord) :
    (create_throughput_chart_st df).1 = df ∧
    (create_latency_chart_st df).1 = df ∧
    (create_throughput_chart_st df).2 = create_throughput_chart df ∧
    (create_latency_chart_st df).2 = create_latency_chart df ∧
    create_latency_chart (create_throughput_chart_st df).1 =
      create_latency_chart df ∧
    create_throughput_chart (create_latency_chart_st df).1 =
      create_throughput_chart df := by
  have h1 : (create_throughput_chart_st df).1 = df := by
    unfold create_throughput_chart_st
    dsimp only []
    split <;> rfl
  have h2 : (create_latency_chart_st df).1 = df := by
    unfold create_latency_chart_st
    dsimp only []
    split <;> rfl
  have h3 : (create_throughput_chart_st df).2 = create_throughput_chart df := by
    unfold create_throughput_chart_st create_throughput_chart
    dsimp only []
    split <;> rfl
  have h4 : (create_latency_chart_st df).2 = create_latency_chart df := by
    unfold create_latency_chart_st create_latency_chart
    dsimp only []
    split <;> rfl
  exact ⟨h1, h2, h3, h4, by rw [h1], by rw [h2]⟩

/-- C10: the pattern is anchored: a line that does not begin with the
literal `Benchmark` never matches, wherever the `Benchmark` token occurs
later in the line. -/
theorem pattern_anchored_at_line_start (line : String)
    (h : List.isPrefixOf "Benchmark".data line.data = false) :
    matchLine line = none := by
  unfold matchLine
  cases hl : litMatch "Benchmark".data line.data with
  | none => rfl
  | some cs =>
    exfalso
    have hdata := litMatch_some _ _ _ hl
    have hpre : List.isPrefixOf "Benchmark".data line.data = true := by
      rw [hdata]
      exact List.isPrefixOf_iff_prefix.mpr (List.prefix_append _ _)
    rw [h] at hpre
    exact Bool.false_ne_true hpre

/-- C10 (witness): one leading blank defeats the match even though the rest
of the line is in the documented format, which does match at position 0. -/
theorem pattern_anchored_at_line_start_w :
    List.isPrefixOf "Benchmark".data
      (" BenchmarkFoo 1 2.0 ns/op" : String).data = false ∧
    matchLine " BenchmarkFoo 1 2.0 ns/op" = none ∧
    (matchLine "BenchmarkFoo 1 2.0 ns/op").isSome = true :=
  ⟨by decide, pattern_anchored_at_line_start _ (by decide), by decide⟩

end MakeGraph
